import Mathlib

/-!
Verification of the TextLocalization repository (`localizeText.py`,
`upload_localizable_strings.py`) against its natural-language design
specification.  The Python functions relevant to the claims are embedded
shallowly below: strings become `String` / `List Char`, `str.find` becomes an
`Option Nat`-valued search, `sys.exit` / failed `assert` become `none` in an
`Option` result, and the process-global authentication token becomes an
explicit state record.  All definitions are executable and structurally
recursive so that concrete runs can be checked by `decide`.
-/

set_option maxRecDepth 4000

namespace TextLocalization

/-- Leftmost occurrence of `pat` in `s`, as an index.  Embeds Python
`s.find(pat)`; `none` plays the role of the `-1` result. -/
def findSub : List Char → List Char → Option Nat
  | [], pat => if pat.isPrefixOf ([] : List Char) then some 0 else none
  | c :: t, pat =>
      if pat.isPrefixOf (c :: t) then some 0
      else (findSub t pat).map (· + 1)

/-- Embeds Python `s.find(pat, start)`: leftmost occurrence at index
`≥ start`. -/
def findFrom (s pat : List Char) (start : Nat) : Option Nat :=
  (findSub (s.drop start) pat).map (· + start)

/-- Embeds Python `file_text.split(';\r\n')` (used in `parseAppStringsFile`
and `process_strings_file`): split on every occurrence of the Windows-style
record separator, keeping empty pieces.  `acc` holds the current piece,
reversed. -/
def splitDosAux (acc : List Char) : List Char → List (List Char)
  | ';' :: '\r' :: '\n' :: rest => acc.reverse :: splitDosAux [] rest
  | c :: rest => splitDosAux (c :: acc) rest
  | [] => [acc.reverse]

/-- Embeds Python `file_text.split(';\n')`: split on the Unix-style record
separator. -/
def splitUnixAux (acc : List Char) : List Char → List (List Char)
  | ';' :: '\n' :: rest => acc.reverse :: splitUnixAux [] rest
  | c :: rest => splitUnixAux (c :: acc) rest
  | [] => [acc.reverse]

/-- Embeds the end-of-line detection plus record split of
`parseAppStringsFile` (localizeText.py lines 292-297) and
`process_strings_file` (upload_localizable_strings.py lines 182-187):
`found_dos_eol = file_text.find('\r\n'); if found_dos_eol > 0: split(';\r\n')
else: split(';\n')`.  Note the source tests `find('\r\n') > 0`, which is
false both when no CRLF exists and when the first CRLF sits at index 0. -/
def splitRecords (t : List Char) : List (List Char) :=
  match findSub t ['\r', '\n'] with
  | some (_ + 1) => splitDosAux [] t
  | _ => splitUnixAux [] t

/-- Embeds `re.compile(r'{\d}').split(text)` from
`convertTranslationOutputToIosFormat` (localizeText.py line 392/400): scan
left to right; an opening brace, one ASCII digit and a closing brace form a
delimiter.  In the failed-window branch the scanner keeps all three inspected
characters at once, which agrees with the regex's advance-by-one: after a
window `'{' d '}'` with `d` not a digit, neither `d` (its successor is the
non-digit `'}'`) nor `'}'` (not an opening brace) can start a match, so the
next possible match begins after the window either way. -/
def splitTokensAux (acc : List Char) : List Char → List (List Char)
  | '{' :: d :: '}' :: rest =>
      if d.isDigit then acc.reverse :: splitTokensAux [] rest
      else splitTokensAux ('}' :: d :: '{' :: acc) rest
  | c :: rest => splitTokensAux (c :: acc) rest
  | [] => [acc.reverse]

/-- The fragments the restore step works on. -/
def splitTokens (t : List Char) : List (List Char) :=
  splitTokensAux [] t

/-- The replacement text `"{%d\}" % i` inserted by `parseKeyFromToGloud`
(localizeText.py line 730).  The Python literal `"{%d\}"` keeps the
backslash: the emitted token is `{i\}`. -/
def markChars (i : Nat) : List Char :=
  '{' :: Nat.toDigits 10 i ++ ['\\', '}']

/-- Embeds the `pat.finditer` loop of `parseKeyFromToGloud` (localizeText.py
lines 717-741) over `re.compile("(%d|%s)")`: scan left to right, replace the
i-th placeholder occurrence with `markChars i` and record the placeholder
literal. -/
def parseKeyAux : Nat → List Char → List Char × List String
  | i, '%' :: 'd' :: rest =>
      let r := parseKeyAux (i + 1) rest
      (markChars i ++ r.1, "%d" :: r.2)
  | i, '%' :: 's' :: rest =>
      let r := parseKeyAux (i + 1) rest
      (markChars i ++ r.1, "%s" :: r.2)
  | i, c :: rest =>
      let r := parseKeyAux i rest
      (c :: r.1, r.2)
  | _, [] => ([], [])

/-- Embeds `parseKeyFromToGloud(text)` (localizeText.py lines 699-741):
returns the tokenized text and the ordered list of placeholder literals.
When no placeholder is found the scan already returns the text unchanged,
matching the `len(formatters) == 0` branch of the source. -/
def parseKeyFromToGloud (text : String) : String × List String :=
  let r := parseKeyAux 0 text.toList
  (String.mk r.1, r.2)

/-- Embeds `escapeQuote` (localizeText.py lines 693-696), which returns its
argument unchanged. -/
def escapeQuote (text : String) : String :=
  text

/-- Embeds `parseLocalizableItem` (localizeText.py lines 201-240), which is
textually identical to `parse_record` (upload_localizable_strings.py lines
128-167).  The outer `Option` is `none` when one of the source's `assert`
statements fires (aborting the process); `some none` is the source's
`(None, None, None)` result, produced whenever the comment delimiters are
missing or out of order — key and value are only ever extracted inside the
`if comment_start >= 0 and comment_end > comment_start` block. -/
def parseLocalizableItem (r : List Char) : Option (Option (String × String × String)) :=
  match findSub r ['/', '*'], findSub r ['*', '/'] with
  | some commentStart, some commentEnd =>
      if commentStart < commentEnd then
        let comment := (r.drop (commentStart + 2)).take (commentEnd - (commentStart + 2))
        match findFrom r ['"'] commentEnd with
        | none => none
        | some keyStart =>
            match findFrom r ['"'] (keyStart + 1) with
            | none => none
            | some keyEnd =>
                let keyName := (r.drop (keyStart + 1)).take (keyEnd - (keyStart + 1))
                match findFrom r ['"'] (keyEnd + 1) with
                | none => none
                | some valueStart =>
                    match findFrom r ['"'] (valueStart + 1) with
                    | none => none
                    | some valueEnd =>
                        let keyValue :=
                          (r.drop (valueStart + 1)).take (valueEnd - (valueStart + 1))
                        some (some (String.mk keyName, String.mk keyValue, String.mk comment))
      else some none
  | _, _ => some none

/-- Embeds `record.replace('\n', ';')` applied to each raw record
(localizeText.py line 306). -/
def cleanRecord (r : List Char) : List Char :=
  r.map (fun c => if c = '\n' then ';' else c)

/-- Embeds the record loop of `parseAppStringsFile` (localizeText.py lines
302-311): parse each record, keep the triples whose key was found, drop the
rest; a failed `assert` anywhere aborts the whole parse. -/
def parseRecordsLoop : List (List Char) → Option (List (String × String × String))
  | [] => some []
  | r :: rs =>
      match parseLocalizableItem (cleanRecord r) with
      | none => none
      | some none => parseRecordsLoop rs
      | some (some rec) =>
          match parseRecordsLoop rs with
          | none => none
          | some rest => some (rec :: rest)

/-- Embeds `parseAppStringsFile` (localizeText.py lines 284-314) on the file
text: split into records, parse each, and return the kept
(key, value, comment) triples in file order. -/
def parseAppStringsFile (fileText : String) : Option (List (String × String × String)) :=
  parseRecordsLoop (splitRecords fileText.toList)

/-- The key delivered by one raw record, if it is well formed (comment block
present and both quoted spans found). -/
def wellFormedKey (r : List Char) : Option String :=
  match parseLocalizableItem (cleanRecord r) with
  | some (some (k, _, _)) => some k
  | _ => none

/-- One translation request: target language plus the ordered tokenized
texts (the `'q'` items of the JSON body built by
`actionTranslateAppStringsFileViaGcloud`). -/
structure TranslationRequest where
  target : String
  items : List String
deriving DecidableEq, Repr

/-- Embeds the request construction of
`actionTranslateAppStringsFileViaGcloud` (localizeText.py lines 776-808):
`formattedList` is built once from the translation keys, in key order, and
the same list is embedded into the request file of every target language. -/
def buildRequestsForLangs (keys : List String) (targetLangs : List String) :
    List TranslationRequest :=
  let qItems := keys.map (fun k => escapeQuote (parseKeyFromToGloud k).1)
  targetLangs.map (fun lang => { target := lang, items := qItems })

/-- Embeds the fragment/formatter loop of
`convertTranslationOutputToIosFormat` (localizeText.py lines 410-415):
fragment at index `ix` is followed by formatter `ix` when one exists. -/
def restoreLoop (formatters : List String) : Nat → List String → String
  | _, [] => ""
  | ix, p :: ps =>
      (if ix < formatters.length then p ++ formatters.getD ix "" else p) ++
        restoreLoop formatters (ix + 1) ps

/-- Specification-level interleaving: fragments and placeholders alternate in
their original order, the last fragment closing the text. -/
def interleaveParts : List String → List String → String
  | [], _ => ""
  | p :: ps, [] => p ++ interleaveParts ps []
  | p :: ps, f :: fs => p ++ f ++ interleaveParts ps fs

/-- Embeds the per-item restore step of
`convertTranslationOutputToIosFormat` (localizeText.py lines 400-418): split
the translated text on the positional-token pattern, abort (`_errorExit`)
when the fragment count does not equal `len(formatters) + 1`, otherwise
interleave; with no formatters the text is passed through unchanged. -/
def restoreText (text : String) (formatters : List String) : Option String :=
  let parts := (splitTokens text.toList).map String.mk
  if formatters.length ≠ parts.length - 1 then none
  else if 0 < formatters.length then some (restoreLoop formatters 0 parts)
  else some text

/-- The three output lines per record written by
`convertTranslationOutputToIosFormat` (localizeText.py lines 423-426). -/
def recLines (rec : String × String × String) : List String :=
  ["/* " ++ rec.2.1 ++ " */", "\"" ++ rec.1 ++ "\" = \"" ++ rec.2.2 ++ "\";", "\n"]

/-- Embeds the translations loop of `convertTranslationOutputToIosFormat`
(localizeText.py lines 393-420): item `ix` uses `translationKeys[ix]`,
`comments[ix]` and `formattersList[ix]`; an out-of-range index (a crash in
the source) and an `_errorExit` are both `none`.  Records are
(key, comment, restored text). -/
def convertLoop (keys comments : List String) (fmtsList : List (List String)) :
    Nat → List String → Option (List (String × String × String))
  | _, [] => some []
  | ix, text :: rest =>
      match keys[ix]?, comments[ix]?, fmtsList[ix]? with
      | some key, some comment, some fmts =>
          match restoreText text fmts with
          | none => none
          | some newText =>
              match convertLoop keys comments fmtsList (ix + 1) rest with
              | none => none
              | some tail => some ((key, comment, newText) :: tail)
      | _, _, _ => none

/-- Embeds `convertTranslationOutputToIosFormat` (localizeText.py lines
368-436) at the text level: from the translated texts of one language to the
content of that language's output file; `none` when the conversion aborted,
in which case the source never reaches the file write. -/
def convertTranslationOutputToIosFormat (keys comments : List String)
    (fmtsList : List (List String)) (texts : List String) : Option String :=
  (convertLoop keys comments fmtsList 0 texts).map
    (fun recs => String.intercalate "\n" (recs.flatMap recLines))

/-- Embeds the per-language output loop of `translateForLanguages`
(localizeText.py lines 474-488): languages are processed sequentially; a
conversion failure is `_errorExit`, i.e. `sys.exit(1)`, which stops the whole
process.  Returns the (language, file content) pairs written so far and
whether the run aborted. -/
def runConversions (keys comments : List String) (fmtsList : List (List String)) :
    List (String × String) → List (String × List String) → List (String × String) × Bool
  | written, [] => (written, false)
  | written, (lang, texts) :: rest =>
      match convertTranslationOutputToIosFormat keys comments fmtsList texts with
      | none => (written, true)
      | some content =>
          runConversions keys comments fmtsList (written ++ [(lang, content)]) rest

/-- The process-wide authentication state of localizeText.py: the module
global `g_authToken` and the `GCLOUD_TOKEN` environment variable. -/
structure GState where
  gAuthToken : Option String
  envToken : Option String

/-- Embeds `acquireAndStoreGToken` (localizeText.py lines 491-511): the fresh
token obtained from `gcloud auth print-access-token` is only printed inside
an instruction for the operator; neither `g_authToken` nor the environment is
assigned, so the returned state equals the input state. -/
def acquireAndStoreGToken (st : GState) (freshToken : String) : GState × String :=
  (st, "Token requested. Run the next command and retry:\nexport GCLOUD_TOKEN=" ++ freshToken)

/-- Embeds the token-handling prologue of `callGcloudTranslate`
(localizeText.py lines 524-530).  Result: the state afterwards, the token
used for the request when one is available, and whether the action aborted
(`_errorExit` asking the operator to retry). -/
def callGcloudTranslateTokenPhase (st : GState) (freshToken : String) :
    GState × Option String × Bool :=
  match st.gAuthToken with
  | none =>
      match st.envToken with
      | none => ((acquireAndStoreGToken st freshToken).1, none, true)
      | some envTok => ({ st with gAuthToken := some envTok }, some envTok, false)
  | some tok => (st, some tok, false)

/-- Embeds `os.path.basename`: the characters after the last path
separator. -/
def baseNameChars (s : List Char) : List Char :=
  s.foldl (fun acc c => if c = '/' then [] else acc ++ [c]) []

/-- Embeds `pathTail[0:2]` from `reportDiff` (localizeText.py lines 920-921,
925-926): the language code is the first two characters of the folder's base
name. -/
def langOf (path : String) : String :=
  String.mk ((baseNameChars path.toList).take 2)

/-- A Python dict as an association list: assignment overwrites the existing
entry for the key in place, otherwise appends. -/
def dictInsert : List (String × String) → String → String → List (String × String)
  | [], k, v => [(k, v)]
  | e :: t, k, v => if e.1 = k then (k, v) :: t else e :: dictInsert t k v

/-- Dict lookup: value of the entry for `k`, if any. -/
def dictLookup : List (String × String) → String → Option String
  | [], _ => none
  | e :: t, k => if e.1 = k then some e.2 else dictLookup t k

/-- Embeds the dictionary construction of `reportDiff` (localizeText.py
lines 916-927): `hash[lang] = path` for each folder, so a later folder with
the same 2-character code silently overwrites an earlier one. -/
def buildFoldersHash (folders : List String) : List (String × String) :=
  folders.foldl (fun h p => dictInsert h (langOf p) p) []

/-- One iteration of the `for lang, oldPath in oldFoldersHash.iteritems()`
loop of `reportDiff` (localizeText.py lines 935-946): a language missing
from the new hash yields a warning message, a present one yields a diff
comparison (language, old path, new path). -/
def diffStep (newH : List (String × String))
    (acc : List (String × String × String) × List String) (e : String × String) :
    List (String × String × String) × List String :=
  match dictLookup newH e.1 with
  | none => (acc.1, acc.2 ++ [e.1])
  | some newPath => (acc.1 ++ [(e.1, e.2, newPath)], acc.2)

/-- Embeds `reportDiff` (localizeText.py lines 907-946) at the level of which
folder pairs are compared and which languages are warned about: the diff
comparisons performed and the warned languages. -/
def reportDiffModel (oldFolders newFolders : List String) :
    List (String × String × String) × List String :=
  (buildFoldersHash oldFolders).foldl (diffStep (buildFoldersHash newFolders)) ([], [])

/-- The last folder of the list whose 2-character language code is `lang` —
what the claim calls the folder that wins. -/
def lastWithCode (lang : String) (folders : List String) : Option String :=
  folders.foldl (fun acc p => if langOf p = lang then some p else acc) none

/-- The comment-delimiter test of `parseLocalizableItem` failing: `/*` or
`*/` missing, or `*/` not strictly after `/*`. -/
def commentDelimsAbsent (r : List Char) : Bool :=
  match findSub r ['/', '*'], findSub r ['*', '/'] with
  | some commentStart, some commentEnd => decide (commentEnd ≤ commentStart)
  | _, _ => true

/-- Prepend a character to the first segment of a segment list. -/
def consHead (c : Char) : List (List Char) → List (List Char)
  | [] => [[c]]
  | s :: ss => (c :: s) :: ss

/-- Specification-level decomposition, written from the tokenization claim's
words rather than from the source, for comparison with the source-derived
`parseKeyAux`: scanning left to right, cut the text at each recognized
placeholder occurrence; return the non-placeholder segments between the
occurrences (one more segment than occurrences) and the placeholder
literals in the order found. -/
def placeholderSegments : List Char → List (List Char) × List String
  | '%' :: 'd' :: rest =>
      let r := placeholderSegments rest
      ([] :: r.1, "%d" :: r.2)
  | '%' :: 's' :: rest =>
      let r := placeholderSegments rest
      ([] :: r.1, "%s" :: r.2)
  | c :: rest =>
      let r := placeholderSegments rest
      (consHead c r.1, r.2)
  | [] => ([[]], [])

/-- Interleave segments with the positional tokens: segment, `markChars i`,
segment, `markChars (i+1)`, …, last segment — i.e. the i-th occurrence site,
counting from `i`, carries the token `{i\}`. -/
def joinWithMarks (i : Nat) : List (List Char) → List Char
  | [] => []
  | s :: ss => s ++ (if ss.isEmpty then [] else markChars i) ++ joinWithMarks (i + 1) ss

/-- Interleave segments with the placeholder literals in order: this is what
reconstitutes the original text from a `placeholderSegments` decomposition. -/
def joinWithLiterals : List (List Char) → List String → List Char
  | [], _ => []
  | s :: ss, [] => s ++ joinWithLiterals ss []
  | s :: ss, f :: fs => s ++ f.toList ++ joinWithLiterals ss fs

end TextLocalization

namespace TextLocalization

/-- Auxiliary: the indexed fragment/formatter loop builds exactly the
positional interleaving of the fragments with the formatters not yet
consumed. -/
theorem restoreLoop_eq_interleave (fmts : List String) :
    ∀ (ps : List String) (ix : Nat),
      restoreLoop fmts ix ps = interleaveParts ps (fmts.drop ix) := by
  intro ps
  induction ps with
  | nil => intro ix; simp [restoreLoop, interleaveParts]
  | cons p ps ih =>
      intro ix
      by_cases h : ix < fmts.length
      · have hd : fmts.drop ix = fmts[ix] :: fmts.drop (ix + 1) := List.drop_eq_getElem_cons h
        rw [restoreLoop, if_pos h, ih (ix + 1), hd, interleaveParts,
          List.getD_eq_getElem fmts "" h]
      · have hd : fmts.drop ix = [] := List.drop_eq_nil_of_le (Nat.le_of_not_lt h)
        have hd2 : fmts.drop (ix + 1) = [] := List.drop_eq_nil_of_le (by omega)
        rw [restoreLoop, if_neg h, ih (ix + 1), hd, hd2, interleaveParts]

/-- C9: whenever the fragment count equals the placeholder count plus one,
the restore step succeeds and returns the interleaving of the fragments with
the placeholder literals in their original order, each literal reinserted
unchanged (the source passes a placeholder-free text through unchanged, which
the right-hand side mirrors). -/
theorem c9_restore_interleaves :
    ∀ (text : String) (fmts : List String),
      (splitTokens text.toList).length = fmts.length + 1 →
      restoreText text fmts =
        some (if fmts.isEmpty then text
          else interleaveParts ((splitTokens text.toList).map String.mk) fmts) := by
  intro text fmts h
  have hp : ((splitTokens text.toList).map String.mk).length = fmts.length + 1 := by
    simpa using h
  unfold restoreText
  rw [if_neg (by omega)]
  cases fmts with
  | nil => simp
  | cons f fs =>
      rw [if_pos (by simp), restoreLoop_eq_interleave]
      simp

/-- C9, witnessed on the spec's German scenario: restoring
`"Die Zeit ist in {0} Stunden und {1} Minuten abgelaufen"` with placeholders
`["%d", "%d"]` yields
`"Die Zeit ist in %d Stunden und %d Minuten abgelaufen"`. -/
theorem c9_restore_interleaves_witness :
    restoreText "Die Zeit ist in {0} Stunden und {1} Minuten abgelaufen" ["%d", "%d"] =
      some "Die Zeit ist in %d Stunden und %d Minuten abgelaufen" :=
  (c9_restore_interleaves "Die Zeit ist in {0} Stunden und {1} Minuten abgelaufen"
    ["%d", "%d"] (by decide)).trans (by decide)

/-- Auxiliary for C6: the record loop keeps, in file order and duplicates
included, exactly the keys of the well-formed records. -/
theorem parseRecordsLoop_keys :
    ∀ (rs : List (List Char)) (recs : List (String × String × String)),
      parseRecordsLoop rs = some recs →
      recs.map (fun rec => rec.1) = rs.filterMap wellFormedKey := by
  intro rs
  induction rs with
  | nil =>
      intro recs h
      simp only [parseRecordsLoop, Option.some.injEq] at h
      simp [← h]
  | cons r rs ih =>
      intro recs h
      rw [parseRecordsLoop] at h
      rcases hi : parseLocalizableItem (cleanRecord r) with _ | oi
      · rw [hi] at h; exact absurd h (by simp)
      · rw [hi] at h
        rcases oi with _ | rec
        · rw [List.filterMap_cons_none (by simp [wellFormedKey, hi])]
          exact ih recs h
        · obtain ⟨k, v, cm⟩ := rec
          rcases hrest : parseRecordsLoop rs with _ | rest
          · rw [hrest] at h; exact absurd h (by simp)
          · rw [hrest] at h
            simp only [Option.some.injEq] at h
            subst h
            rw [List.filterMap_cons_some (show wellFormedKey r = some k by
              simp [wellFormedKey, hi])]
            simp [ih rest hrest]

/-- C6: the record parser preserves the original record order and never
deduplicates — the keys of its output are, position by position and
duplicates included, the keys of the well-formed records of the file — and
every per-language translation request carries its items in exactly that key
order (the item list is computed once from the keys and shared by all
target languages), so position is an order-faithful correlation channel. -/
theorem c6_order_preserved_no_dedup :
    ∀ (fileText : String) (recs : List (String × String × String))
      (targetLangs : List String),
      parseAppStringsFile fileText = some recs →
      recs.map (fun rec => rec.1) = (splitRecords fileText.toList).filterMap wellFormedKey ∧
      ∀ req ∈ buildRequestsForLangs (recs.map (fun rec => rec.1)) targetLangs,
        req.items =
          (recs.map (fun rec => rec.1)).map (fun k => escapeQuote (parseKeyFromToGloud k).1) := by
  intro fileText recs targetLangs h
  refine ⟨parseRecordsLoop_keys _ _ h, ?_⟩
  intro req hreq
  simp only [buildRequestsForLangs, List.mem_map] at hreq
  obtain ⟨lang, -, rfl⟩ := hreq
  rfl

/-- C6, witnessed on a two-record file whose records share the same key: the
duplicate is preserved in order. -/
theorem c6_order_preserved_no_dedup_witness :
    ([("K", "V", " a "), ("K", "V2", " b ")].map
        (fun rec : String × String × String => rec.1)) =
      (splitRecords ("/* a */\n\"K\" = \"V\";\n/* b */\n\"K\" = \"V2\";\n".toList)).filterMap
        wellFormedKey :=
  (c6_order_preserved_no_dedup "/* a */\n\"K\" = \"V\";\n/* b */\n\"K\" = \"V2\";\n"
    [("K", "V", " a "), ("K", "V2", " b ")] ["de"] (by decide)).1

/-- C1: The specified round trip `restore(tokenize(text)) == text` fails on
the code for any text with a placeholder: `parseKeyFromToGloud` emits the
token `{i\}` with a backslash (its own docstring documents this), while the
restore side of `convertTranslationOutputToIosFormat` splits on the pattern
`{i}` without a backslash even though its docstring says it converts the
`{n\}` placeholders back.  On the spec's own example text the composition
therefore hits the fatal count mismatch (`none`) instead of returning the
original text. -/
theorem c1_roundtrip_fails_on_placeholder_text :
    restoreText (parseKeyFromToGloud "Time is up in %d hours and %d minutes").1
        (parseKeyFromToGloud "Time is up in %d hours and %d minutes").2 = none ∧
    (none : Option String) ≠ some "Time is up in %d hours and %d minutes" := by
  decide

/-- C2 counterexample: a placeholder-count mismatch for the first target
language makes `runConversions` return immediately with the abort flag set,
writing nothing — the second language is never attempted, even though its
conversion in isolation succeeds.  This refutes the claim that other
languages are unaffected and still attempted. -/
theorem c2_failure_aborts_other_languages_cex :
    runConversions ["K"] ["c"] [["%d"]] []
        [("de", ["kein Token"]), ("it", ["voila {0} fin"])] = ([], true) ∧
    (convertTranslationOutputToIosFormat ["K"] ["c"] [["%d"]] ["voila {0} fin"]).isSome = true := by
  decide

/-- C2 amended: the count mismatch is fatal for the whole process, not just
the affected language: `convertTranslationOutputToIosFormat` calls
`_errorExit`, i.e. `sys.exit(1)`, so the affected language's output file is
not written, no later target language is attempted, and only the languages
processed before the failure keep their output files. -/
theorem c2_amended_global_abort :
    ∀ (keys comments : List String) (fmtsList : List (List String))
      (written : List (String × String)) (lang : String) (texts : List String)
      (rest : List (String × List String)),
      convertTranslationOutputToIosFormat keys comments fmtsList texts = none →
      runConversions keys comments fmtsList written ((lang, texts) :: rest) = (written, true) := by
  intro keys comments fmtsList written lang texts rest h
  simp [runConversions, h]

/-- C2 amended, witnessed at the concrete two-language run of the
counterexample. -/
theorem c2_amended_global_abort_witness :
    runConversions ["K"] ["c"] [["%d"]] []
        [("de", ["kein Token"]), ("it", ["voila {0} fin"])] = ([], true) :=
  c2_amended_global_abort ["K"] ["c"] [["%d"]] [] "de" ["kein Token"]
    [("it", ["voila {0} fin"])] (by decide)

/-- C3 counterexample: on the spec's example input, tokenization does not
produce the claimed `"Time is up in {0} hours and {1} minutes"` — the code
inserts a backslash before each closing brace. -/
theorem c3_tokenize_scenario_cex :
    parseKeyFromToGloud "Time is up in %d hours and %d minutes" ≠
      ("Time is up in {0} hours and {1} minutes", ["%d", "%d"]) := by
  decide

/-- Auxiliary for C3: prepending a character to the first segment prepends it
to the marks interleaving. -/
theorem joinWithMarks_consHead (i : Nat) (c : Char) (segs : List (List Char)) (h : segs ≠ []) :
    joinWithMarks i (consHead c segs) = c :: joinWithMarks i segs := by
  cases segs with
  | nil => exact absurd rfl h
  | cons s ss => simp [consHead, joinWithMarks]

/-- Auxiliary for C3: prepending a character to the first segment prepends it
to the literals interleaving. -/
theorem joinWithLiterals_consHead (c : Char) (segs : List (List Char)) (fs : List String)
    (h : segs ≠ []) :
    joinWithLiterals (consHead c segs) fs = c :: joinWithLiterals segs fs := by
  cases segs with
  | nil => exact absurd rfl h
  | cons s ss => cases fs <;> simp [consHead, joinWithLiterals]

/-- Auxiliary for C3, universal over all input texts and start indices: the
segment decomposition is non-degenerate, the source's tokenizer output is
exactly the segments interleaved with the tokens `markChars i`,
`markChars (i+1)`, …, its formatter list is exactly the placeholder literals
in the order found, and interleaving the segments with those literals
reconstructs the input — so the scan replaces the i-th occurrence, counting
from `i`, with `{i\}` and changes nothing else. -/
theorem parseKeyAux_decomposition :
    ∀ (i : Nat) (l : List Char),
      (placeholderSegments l).1 ≠ [] ∧
      (parseKeyAux i l).1 = joinWithMarks i (placeholderSegments l).1 ∧
      (parseKeyAux i l).2 = (placeholderSegments l).2 ∧
      joinWithLiterals (placeholderSegments l).1 (placeholderSegments l).2 = l := by
  intro i l
  induction i, l using parseKeyAux.induct with
  | case1 i rest ih =>
      obtain ⟨ihne, ih1, ih2, ih3⟩ := ih
      refine ⟨by simp [placeholderSegments], ?_, ?_, ?_⟩
      · simp [parseKeyAux, placeholderSegments, joinWithMarks, ihne, ih1]
      · simp [parseKeyAux, placeholderSegments, ih2]
      · simp [placeholderSegments, joinWithLiterals, ih3]
  | case2 i rest ih =>
      obtain ⟨ihne, ih1, ih2, ih3⟩ := ih
      refine ⟨by simp [placeholderSegments], ?_, ?_, ?_⟩
      · simp [parseKeyAux, placeholderSegments, joinWithMarks, ihne, ih1]
      · simp [parseKeyAux, placeholderSegments, ih2]
      · simp [placeholderSegments, joinWithLiterals, ih3]
  | case3 i c rest h1 h2 ih =>
      obtain ⟨ihne, ih1, ih2, ih3⟩ := ih
      have hp : parseKeyAux i (c :: rest) =
          (c :: (parseKeyAux i rest).1, (parseKeyAux i rest).2) := by
        rw [parseKeyAux]
        all_goals first | rfl | exact h1 | exact h2
      have hs : placeholderSegments (c :: rest) =
          (consHead c (placeholderSegments rest).1, (placeholderSegments rest).2) := by
        rw [placeholderSegments]
        all_goals first | rfl | exact h1 | exact h2
      refine ⟨?_, ?_, ?_, ?_⟩
      · simp only [hs]
        cases hseg : (placeholderSegments rest).1 with
        | nil => exact absurd hseg ihne
        | cons s ss => simp [consHead]
      · simp only [hp, hs]
        rw [joinWithMarks_consHead _ _ _ ihne, ih1]
      · simp only [hp, hs]
        exact ih2
      · simp only [hs]
        rw [joinWithLiterals_consHead _ _ _ ihne, ih3]
  | case4 i =>
      refine ⟨by simp [placeholderSegments], ?_, ?_, ?_⟩ <;>
        simp [parseKeyAux, placeholderSegments, joinWithMarks, joinWithLiterals]

/-- C3 amended: for every input text, tokenization scans left to right and
replaces the i-th placeholder occurrence, counting from 0, with the token
`{i\}` — brace, index, backslash, brace — recording the literals in the
order found: the tokenized text is exactly the between-occurrence segments
interleaved with the tokens `{0\}`, `{1\}`, …, the formatter list is exactly
the literals in order, and the same segments interleaved with the literals
reconstruct the input.  On the spec's example input the result is
`"Time is up in {0\} hours and {1\} minutes"` with placeholders
`["%d", "%d"]`, shown together with a mixed `%s`/`%d` text and a
placeholder-free text (returned unchanged). -/
theorem c3_amended_tokenize_backslash :
    (∀ text : String,
      (parseKeyFromToGloud text).1 =
        String.mk (joinWithMarks 0 (placeholderSegments text.toList).1) ∧
      (parseKeyFromToGloud text).2 = (placeholderSegments text.toList).2 ∧
      joinWithLiterals (placeholderSegments text.toList).1
          (placeholderSegments text.toList).2 = text.toList) ∧
    parseKeyFromToGloud "Time is up in %d hours and %d minutes" =
      ("Time is up in \x7b0\\\x7d hours and \x7b1\\\x7d minutes", ["%d", "%d"]) ∧
    parseKeyFromToGloud "Copy %s to %s in %d steps" =
      ("Copy \x7b0\\\x7d to \x7b1\\\x7d in \x7b2\\\x7d steps", ["%s", "%s", "%d"]) ∧
    parseKeyFromToGloud "no placeholders" = ("no placeholders", []) := by
  refine ⟨?_, by decide, by decide, by decide⟩
  intro text
  obtain ⟨-, h1, h2, h3⟩ := parseKeyAux_decomposition 0 text.toList
  exact ⟨congrArg String.mk h1, h2, h3⟩

/-- C4 counterexample: a record with a well-formed quoted key and quoted
value but no comment delimiters is not parsed — `parseLocalizableItem`
returns no key/value at all (`some none`), and `parseAppStringsFile` drops
the record, contrary to the claim that key and value are still extracted. -/
theorem c4_no_comment_record_dropped_cex :
    parseLocalizableItem ("\"How are you\" = \"How are you\"".toList) = some none ∧
    parseAppStringsFile "\"How are you\" = \"How are you\";\n" = some [] := by
  decide

/-- C4 amended: the record parser extracts key and value only when both
comment delimiters are present with `*/` strictly after `/*`; whenever that
test fails the record yields no key, no value and no comment, and is
dropped. -/
theorem c4_amended_no_comment_no_record :
    ∀ r : List Char, commentDelimsAbsent r = true → parseLocalizableItem r = some none := by
  intro r h
  unfold commentDelimsAbsent at h
  unfold parseLocalizableItem
  rcases h1 : findSub r ['/', '*'] with _ | cs <;>
    rcases h2 : findSub r ['*', '/'] with _ | ce <;>
      simp [h1, h2] at h ⊢
  omega

/-- C4 amended, witnessed on a concrete record with key and value but no
comment. -/
theorem c4_amended_no_comment_no_record_witness :
    commentDelimsAbsent ("\"How are you\" = \"Guten Tag\"".toList) = true ∧
    parseLocalizableItem ("\"How are you\" = \"Guten Tag\"".toList) = some none :=
  ⟨by decide, c4_amended_no_comment_no_record _ (by decide)⟩

/-- C5 counterexample: with the first CRLF at position 0, the file
`"\r\nA;\r\nB"` contains the Windows separator `;\r\n` (at index 3), yet the
parser does not split on it — `find('\r\n') > 0` is false at index 0, so the
Unix split is used and the text stays one unsplit record, while splitting on
the present Windows separator would have produced two records. -/
theorem c5_crlf_at_start_cex :
    splitRecords ("\r\nA;\r\nB".toList) = ["\r\nA;\r\nB".toList] ∧
    findSub ("\r\nA;\r\nB".toList) [';', '\r', '\n'] = some 3 ∧
    splitDosAux [] ("\r\nA;\r\nB".toList) = ["\r\nA".toList, "B".toList] := by
  decide

/-- C5 amended: the parser probes for a bare CRLF (not for the full
separator `;\r\n`) at a strictly positive index: if the first CRLF occurs at
index 1 or later it splits on `;\r\n` (whether or not that separator actually
occurs); if there is no CRLF, or the first CRLF is at index 0, it splits on
`;\n`. -/
theorem c5_amended_eol_dispatch :
    ∀ t : List Char,
      (∀ i : Nat, findSub t ['\r', '\n'] = some (i + 1) → splitRecords t = splitDosAux [] t) ∧
      ((findSub t ['\r', '\n'] = none ∨ findSub t ['\r', '\n'] = some 0) →
        splitRecords t = splitUnixAux [] t) := by
  intro t
  constructor
  · intro i h
    unfold splitRecords
    rw [h]
  · intro h
    unfold splitRecords
    rcases h with h | h <;> rw [h]

/-- C5 amended, witnessed on a Windows-style and on a Unix-style file. -/
theorem c5_amended_eol_dispatch_witness :
    splitRecords ("A;\r\nB".toList) = splitDosAux [] ("A;\r\nB".toList) ∧
    splitRecords ("A;\nB".toList) = splitUnixAux [] ("A;\nB".toList) :=
  ⟨(c5_amended_eol_dispatch _).1 1 (by decide),
   (c5_amended_eol_dispatch _).2 (Or.inl (by decide))⟩

/-- C7: when `g_authToken` is unset and `GCLOUD_TOKEN` is absent from the
environment, the client fetches a fresh token and aborts the action asking
the operator to retry — but it does not persist the token anywhere: the
process state after the call is unchanged (both token slots still `none`),
and the fresh token only appears inside the printed export instruction.
This contradicts the claim (and `acquireAndStoreGToken`'s own docstring,
which says the token is stored); the divergence is the missing store, the
abort-without-auto-retry part of the claim does hold. -/
theorem c7_token_not_persisted :
    (callGcloudTranslateTokenPhase ⟨none, none⟩ "tok123").1.gAuthToken = none ∧
    (callGcloudTranslateTokenPhase ⟨none, none⟩ "tok123").1.envToken = none ∧
    (callGcloudTranslateTokenPhase ⟨none, none⟩ "tok123").2.1 = none ∧
    (callGcloudTranslateTokenPhase ⟨none, none⟩ "tok123").2.2 = true ∧
    (acquireAndStoreGToken ⟨none, none⟩ "tok123").2 =
      "Token requested. Run the next command and retry:\nexport GCLOUD_TOKEN=tok123" := by
  decide

/-- C8 counterexample: on the spec's example file the parser yields one
record with the expected key and value, but the comment is the raw substring
between the delimiters, `" Common greeting "` with its surrounding spaces —
not the claimed `"Common greeting"`. -/
theorem c8_parse_scenario_cex :
    parseAppStringsFile "/* Common greeting */\n\"How are you\" = \"How are you\";\n" =
      some [("How are you", "How are you", " Common greeting ")] ∧
    parseAppStringsFile "/* Common greeting */\n\"How are you\" = \"How are you\";\n" ≠
      some [("How are you", "How are you", "Common greeting")] := by
  decide

/-- C8 amended: parsing the example file yields exactly one record with key
`"How are you"`, value `"How are you"`, and comment `" Common greeting "`
(the substring strictly between `/*` and `*/`, surrounding spaces included);
the empty trailing record produced by the final separator is skipped. -/
theorem c8_amended_parse_scenario :
    parseAppStringsFile "/* Common greeting */\n\"How are you\" = \"How are you\";\n" =
      some [("How are you", "How are you", " Common greeting ")] := by
  decide

end TextLocalization

namespace TextLocalization

/-- Auxiliary: dict lookup after a dict assignment. -/
theorem dictLookup_dictInsert (k v k' : String) :
    ∀ h : List (String × String),
      dictLookup (dictInsert h k v) k' = if k' = k then some v else dictLookup h k' := by
  intro h
  induction h with
  | nil =>
      by_cases hk : k' = k
      · subst hk
        simp [dictInsert, dictLookup]
      · simp only [dictInsert, dictLookup]
        rw [if_neg fun hh => hk hh.symm, if_neg hk]
  | cons e t ih =>
      by_cases he : e.1 = k
      · simp only [dictInsert, if_pos he, dictLookup]
        by_cases hk : k' = k
        · subst hk
          simp
        · rw [if_neg fun hh => hk hh.symm, if_neg hk, if_neg fun hh => hk (he.symm.trans hh).symm]
      · simp only [dictInsert, if_neg he, dictLookup]
        by_cases hek : e.1 = k'
        · have hk : k' ≠ k := fun hh => he (hek.trans hh)
          rw [if_pos hek, if_neg hk, if_pos hek]
        · rw [if_neg hek, if_neg hek, ih]

/-- Auxiliary: the keys present after a dict assignment. -/
theorem mem_keys_dictInsert (k v m : String) :
    ∀ h : List (String × String),
      m ∈ (dictInsert h k v).map Prod.fst ↔ m = k ∨ m ∈ h.map Prod.fst := by
  intro h
  induction h with
  | nil => simp [dictInsert]
  | cons e t ih =>
      by_cases he : e.1 = k
      · simp [dictInsert, he, ih]
      · simp [dictInsert, he, ih]
        tauto

/-- Auxiliary: dict assignment preserves key distinctness. -/
theorem nodup_keys_dictInsert (k v : String) :
    ∀ h : List (String × String),
      (h.map Prod.fst).Nodup → ((dictInsert h k v).map Prod.fst).Nodup := by
  intro h
  induction h with
  | nil => intro _; simp [dictInsert]
  | cons e t ih =>
      intro hn
      simp only [List.map_cons, List.nodup_cons] at hn
      by_cases he : e.1 = k
      · simp only [dictInsert, if_pos he, List.map_cons, List.nodup_cons]
        exact ⟨he ▸ hn.1, hn.2⟩
      · simp only [dictInsert, if_neg he, List.map_cons, List.nodup_cons]
        refine ⟨?_, ih hn.2⟩
        rw [mem_keys_dictInsert]
        rintro (h | h)
        · exact he h
        · exact hn.1 h

/-- Auxiliary: the folder hash has pairwise distinct language keys. -/
theorem nodup_keys_buildFoldersHash (fs : List String) :
    ((buildFoldersHash fs).map Prod.fst).Nodup := by
  have key : ∀ (gs : List String) (h : List (String × String)),
      (h.map Prod.fst).Nodup →
      ((gs.foldl (fun acc p => dictInsert acc (langOf p) p) h).map Prod.fst).Nodup := by
    intro gs
    induction gs with
    | nil => intro h hn; simpa using hn
    | cons p gs ih =>
        intro h hn
        simpa using ih _ (nodup_keys_dictInsert _ _ _ hn)
  simpa [buildFoldersHash] using key fs [] (by simp)

/-- Auxiliary: with distinct keys, membership determines the lookup. -/
theorem dictLookup_of_mem_of_nodup :
    ∀ (h : List (String × String)), (h.map Prod.fst).Nodup →
      ∀ (k v : String), (k, v) ∈ h → dictLookup h k = some v := by
  intro h
  induction h with
  | nil => intro _ k v hm; simp at hm
  | cons e t ih =>
      intro hn k v hm
      simp only [List.map_cons, List.nodup_cons] at hn
      rcases List.mem_cons.mp hm with rfl | hm'
      · simp [dictLookup]
      · by_cases he : e.1 = k
        · exact absurd (he ▸ List.mem_map_of_mem Prod.fst hm' : e.1 ∈ t.map Prod.fst) hn.1
        · simp [dictLookup, he, ih hn.2 k v hm']

/-- Auxiliary: looking a language up in the folder hash returns the last
folder of the input list carrying that code. -/
theorem dictLookup_buildFoldersHash (fs : List String) (l : String) :
    dictLookup (buildFoldersHash fs) l = lastWithCode l fs := by
  have key : ∀ (gs : List String) (h : List (String × String)),
      dictLookup (gs.foldl (fun acc p => dictInsert acc (langOf p) p) h) l =
        gs.foldl (fun acc p => if langOf p = l then some p else acc) (dictLookup h l) := by
    intro gs
    induction gs with
    | nil => intro h; simp
    | cons p gs ih =>
        intro h
        simp only [List.foldl_cons]
        rw [ih, dictLookup_dictInsert]
        by_cases hp : langOf p = l
        · rw [if_pos hp, if_pos hp.symm]
        · rw [if_neg hp, if_neg fun hh => hp hh.symm]
  simpa [buildFoldersHash, lastWithCode] using key fs []

/-- Auxiliary: closed form of the report fold — one comparison per old-hash
entry whose language the new hash also has, one warning per old-hash entry
whose language it lacks. -/
theorem diff_fold_eq (newH : List (String × String)) :
    ∀ (entries : List (String × String)) (acc : List (String × String × String) × List String),
      entries.foldl (diffStep newH) acc =
        (acc.1 ++ entries.filterMap
            (fun e => (dictLookup newH e.1).map (fun np => (e.1, e.2, np))),
         acc.2 ++ (entries.filter (fun e => (dictLookup newH e.1).isNone)).map
            (fun e => e.1)) := by
  intro entries
  induction entries with
  | nil => intro acc; simp
  | cons e t ih =>
      intro acc
      rcases hq : dictLookup newH e.1 with _ | np <;>
        simp [diffStep, hq, ih, List.filterMap_cons, List.filter_cons]

/-- C10: in the diff reporter, a comparison for language `l` always pairs the
last old folder with code `l` against the last new folder with code `l`
(earlier same-code folders are overwritten in the hash and never compared,
with no warning about them), and a warning is only ever emitted for a
language that has an old folder but no new folder — so a language present
only in the new set is never mentioned, in neither comparisons nor
warnings. -/
theorem c10_last_folder_wins_no_warning :
    ∀ (oldFolders newFolders : List String) (l p q : String),
      ((l, p, q) ∈ (reportDiffModel oldFolders newFolders).1 →
        lastWithCode l oldFolders = some p ∧ lastWithCode l newFolders = some q) ∧
      (l ∈ (reportDiffModel oldFolders newFolders).2 →
        lastWithCode l oldFolders ≠ none ∧ lastWithCode l newFolders = none) := by
  intro oldF newF l p q
  have hrep := diff_fold_eq (buildFoldersHash newF) (buildFoldersHash oldF) ([], [])
  constructor
  · intro hm
    rw [reportDiffModel, hrep] at hm
    simp only [List.nil_append, List.mem_filterMap, Option.map_eq_some'] at hm
    obtain ⟨e, he, np, hq, heq⟩ := hm
    simp only [Prod.mk.injEq] at heq
    obtain ⟨h1, h2, h3⟩ := heq
    refine ⟨?_, ?_⟩
    · rw [← dictLookup_buildFoldersHash]
      have := dictLookup_of_mem_of_nodup _ (nodup_keys_buildFoldersHash oldF) e.1 e.2
        (by simpa using he)
      rw [h1, h2] at this
      exact this
    · rw [← dictLookup_buildFoldersHash, ← h1, hq, h3]
  · intro hm
    rw [reportDiffModel, hrep] at hm
    simp only [List.nil_append, List.mem_map, List.mem_filter] at hm
    obtain ⟨e, ⟨he, hq⟩, heq⟩ := hm
    refine ⟨?_, ?_⟩
    · rw [← dictLookup_buildFoldersHash]
      have := dictLookup_of_mem_of_nodup _ (nodup_keys_buildFoldersHash oldF) e.1 e.2
        (by simpa using he)
      rw [heq] at this
      rw [this]
      simp
    · rw [← dictLookup_buildFoldersHash, ← heq]
      simpa using hq

/-- C10, witnessed: with two old `de` folders only the later one is compared
(against the last new `de` folder), and the warning for `it` certifies an
old language missing from the new set. -/
theorem c10_last_folder_wins_no_warning_witness :
    (lastWithCode "de" ["proj/de.lproj", "proj/de.old", "proj/it.lproj"] = some "proj/de.old" ∧
      lastWithCode "de" ["out/de.DE", "out/fr.lproj"] = some "out/de.DE") ∧
    (lastWithCode "it" ["proj/de.lproj", "proj/de.old", "proj/it.lproj"] ≠ none ∧
      lastWithCode "it" ["out/de.DE", "out/fr.lproj"] = none) :=
  ⟨(c10_last_folder_wins_no_warning ["proj/de.lproj", "proj/de.old", "proj/it.lproj"]
      ["out/de.DE", "out/fr.lproj"] "de" "proj/de.old" "out/de.DE").1 (by decide),
   (c10_last_folder_wins_no_warning ["proj/de.lproj", "proj/de.old", "proj/it.lproj"]
      ["out/de.DE", "out/fr.lproj"] "it" "x" "y").2 (by decide)⟩

end TextLocalization
